import Mathlib

/-!
Shallow embedding of the recipe-keeper client core: the filter/search
engine and collection-store handlers of `src/pages/Dashboard.tsx` and the
form view-model of `src/components/RecipeForm.tsx`, with theorems checking
the specification's claims against them.

Strings are modelled by Lean `String`; JavaScript `String.prototype.includes`
is modelled by substring containment on the underlying character lists, and
`String.prototype.trim` by dropping whitespace characters from both ends.
-/

namespace RecipeKeeper

/-- The `difficulty` string union of the `Recipe` interface. -/
inductive Difficulty where
  | easy
  | medium
  | hard
deriving DecidableEq, Repr

/-- The `cuisine` string union of the `Recipe` interface. -/
inductive Cuisine where
  | italian
  | mexican
  | asian
  | american
  | french
  | indian
  | mediterranean
  | other
deriving DecidableEq, Repr

/-- The string value each `difficulty` member stands for in the source. -/
def Difficulty.toStr : Difficulty → String
  | .easy => "easy"
  | .medium => "medium"
  | .hard => "hard"

/-- The string value each `cuisine` member stands for in the source. -/
def Cuisine.toStr : Cuisine → String
  | .italian => "italian"
  | .mexican => "mexican"
  | .asian => "asian"
  | .american => "american"
  | .french => "french"
  | .indian => "indian"
  | .mediterranean => "mediterranean"
  | .other => "other"

/-- The `Recipe` interface of `src/pages/Dashboard.tsx` (lines 24-35).
Optional numeric fields are `Option Nat`; `created_at` is an opaque
timestamp modelled by `Nat`. -/
structure Recipe where
  id : String
  title : String
  ingredients : List String
  instructions : String
  difficulty : Difficulty
  cuisine : Cuisine
  prep_time : Option Nat
  cook_time : Option Nat
  servings : Option Nat
  created_at : Nat
deriving DecidableEq, Repr

/-- JavaScript `s.toLowerCase()` (character-wise lower-casing; the source
only ever compares ASCII recipe text). -/
def jsToLower (s : String) : String :=
  String.mk (s.toList.map Char.toLower)

/-- JavaScript `hay.includes(pat)`: some suffix of `hay` starts with `pat`
(true for the empty pattern). -/
def strIncludes (hay pat : String) : Bool :=
  hay.toList.tails.any fun t => pat.toList.isPrefixOf t

/-- The `matchesSearch` condition of `filteredRecipes`
(`src/pages/Dashboard.tsx` lines 149-152): the lower-cased title contains
the lower-cased search term, or some lower-cased ingredient does. -/
def matchesSearch (recipe : Recipe) (searchTerm : String) : Bool :=
  strIncludes (jsToLower recipe.title) (jsToLower searchTerm) ||
    recipe.ingredients.any fun ingredient =>
      strIncludes (jsToLower ingredient) (jsToLower searchTerm)

/-- `filteredRecipes` (`src/pages/Dashboard.tsx` lines 148-157): keep the
recipes matching the search term, the cuisine filter (with sentinel
`"all"`) and the difficulty filter (same sentinel). -/
def filteredRecipes (recipes : List Recipe)
    (searchTerm cuisineFilter difficultyFilter : String) : List Recipe :=
  recipes.filter fun recipe =>
    matchesSearch recipe searchTerm &&
    (cuisineFilter == "all" || recipe.cuisine.toStr == cuisineFilter) &&
    (difficultyFilter == "all" || recipe.difficulty.toStr == difficultyFilter)

/-- Written from the claim's words, for comparison with `filteredRecipes`:
a recipe matches when (the text is empty, or the title contains it
case-insensitively, or some ingredient does), and the cuisine filter is the
sentinel `"all"` or equals the recipe's cuisine, and likewise for
difficulty. -/
def claimMatches (recipe : Recipe) (text cuisineF difficultyF : String) : Bool :=
  (text == "" ||
    strIncludes (jsToLower recipe.title) (jsToLower text) ||
    recipe.ingredients.any fun ingredient =>
      strIncludes (jsToLower ingredient) (jsToLower text)) &&
  (cuisineF == "all" || recipe.cuisine.toStr == cuisineF) &&
  (difficultyF == "all" || recipe.difficulty.toStr == difficultyF)

theorem strIncludes_of_toList_nil (hay : String) (pat : String)
    (h : pat.toList = []) : strIncludes hay pat = true := by
  unfold strIncludes
  rw [h]
  cases hl : hay.toList with
  | nil => rfl
  | cons a as => simp [List.isPrefixOf]

theorem empty_toLower_toList : (jsToLower "").toList = [] := by decide

theorem matchesSearch_empty (recipe : Recipe) : matchesSearch recipe "" = true := by
  unfold matchesSearch
  rw [strIncludes_of_toList_nil _ _ empty_toLower_toList]
  rfl

/-- Claim C1: `filteredRecipes` returns exactly the recipes matching all
three criteria of the claim: text matches case-insensitively against the
title or some ingredient (empty text matches everything), and cuisine and
difficulty match under the `"all"` sentinel rule. -/
theorem filteredRecipes_eq_claim (C : List Recipe) (t c d : String) :
    filteredRecipes C t c d = C.filter fun r => claimMatches r t c d := by
  unfold filteredRecipes
  apply List.filter_congr
  intro r _
  unfold claimMatches matchesSearch
  cases ht : (t == "") with
  | false => rw [Bool.false_or]
  | true =>
      have ht' : t = "" := by exact eq_of_beq ht
      subst ht'
      rw [strIncludes_of_toList_nil _ _ empty_toLower_toList]
      simp

/-- Claim C6: the visible list is a subsequence of the collection in the
original order, and the neutral query (empty text, `"all"` cuisine,
`"all"` difficulty) returns the collection unchanged. -/
theorem filteredRecipes_sublist_and_neutral (C : List Recipe) (t c d : String) :
    (filteredRecipes C t c d).Sublist C ∧
      filteredRecipes C "" "all" "all" = C := by
  constructor
  · exact List.filter_sublist C
  · unfold filteredRecipes
    apply List.filter_eq_self.mpr
    intro r _
    rw [matchesSearch_empty]
    rfl

/-- The `Omit<Recipe, 'id'>` draft held in `formData`
(`src/components/RecipeForm.tsx` lines 35-44). -/
structure FormData where
  title : String
  ingredients : List String
  instructions : String
  difficulty : Difficulty
  cuisine : Cuisine
  prep_time : Option Nat
  cook_time : Option Nat
  servings : Option Nat
deriving DecidableEq, Repr

/-- The initial `formData` state of a form not seeded from an existing
recipe (`RecipeForm.tsx` lines 35-44). -/
def initialFormData : FormData :=
  { title := ""
    ingredients := [""]
    instructions := ""
    difficulty := Difficulty.medium
    cuisine := Cuisine.other
    prep_time := none
    cook_time := none
    servings := some 4 }

/-- JavaScript `s.trim()` on the character list: whitespace dropped from
both ends. -/
def jsTrim (l : List Char) : List Char :=
  ((l.dropWhile Char.isWhitespace).reverse.dropWhile Char.isWhitespace).reverse

/-- The payload `handleSubmit` passes to `onSubmit`
(`RecipeForm.tsx` lines 61-68): the draft with the ingredients whose
trimmed text is empty filtered out; every other field is spread unchanged. -/
def handleSubmit (fd : FormData) : FormData :=
  { fd with ingredients :=
      fd.ingredients.filter fun ingredient => !(jsTrim ingredient.toList == []) }

/-- The submit path of the rendered form. The `required` attributes on the
title input (`RecipeForm.tsx` line 107) and the instructions textarea
(line 151) block native form submission while their value is the empty
string; the ingredient inputs carry no `required` attribute, so once those
two gates pass, `handleSubmit` dispatches `onSubmit` whatever the
ingredients hold. `none` means blocked at the form boundary, `some payload`
means `onSubmit payload` was dispatched. -/
def submitForm (fd : FormData) : Option FormData :=
  if fd.title == "" || fd.instructions == "" then none
  else some (handleSubmit fd)

/-- Claim C2: submission normalization keeps exactly the ingredients that
are non-empty after trimming, in their original order and with their
original untrimmed text, and leaves every other field of the draft
unchanged; `["Salt", "", "  ", "Pepper"]` normalizes to
`["Salt", "Pepper"]`. -/
theorem handleSubmit_normalization (fd : FormData) :
    (handleSubmit fd).ingredients.Sublist fd.ingredients ∧
    (handleSubmit fd).ingredients =
      (fd.ingredients.filter fun ingredient => decide (jsTrim ingredient.toList ≠ [])) ∧
    (handleSubmit fd).title = fd.title ∧
    (handleSubmit fd).instructions = fd.instructions ∧
    (handleSubmit fd).difficulty = fd.difficulty ∧
    (handleSubmit fd).cuisine = fd.cuisine ∧
    (handleSubmit fd).prep_time = fd.prep_time ∧
    (handleSubmit fd).cook_time = fd.cook_time ∧
    (handleSubmit fd).servings = fd.servings ∧
    (handleSubmit { initialFormData with
        ingredients := ["Salt", "", "  ", "Pepper"] }).ingredients
      = ["Salt", "Pepper"] := by
  refine ⟨List.filter_sublist _, ?_, rfl, rfl, rfl, rfl, rfl, rfl, rfl, by decide⟩
  apply List.filter_congr
  intro i _
  by_cases h : jsTrim i.toList = []
  · rw [h]
    rfl
  · have hne : (jsTrim i.toList == []) = false := by
      cases hd : jsTrim i.toList == [] with
      | false => rfl
      | true => exact absurd (eq_of_beq hd) h
    rw [hne, decide_eq_true h]
    rfl

/-- Claim C10: a draft not seeded from an existing recipe starts with empty
title and instructions, exactly one blank ingredient slot, difficulty
medium, cuisine other, unset prep and cook times, and servings defaulted to
4; submission never alters servings, so an untouched servings field is
dispatched as 4. -/
theorem initialFormData_defaults :
    initialFormData.title = "" ∧
    initialFormData.instructions = "" ∧
    initialFormData.ingredients = [""] ∧
    initialFormData.difficulty = Difficulty.medium ∧
    initialFormData.cuisine = Cuisine.other ∧
    initialFormData.prep_time = none ∧
    initialFormData.cook_time = none ∧
    initialFormData.servings = some 4 ∧
    (∀ fd : FormData, (handleSubmit fd).servings = fd.servings) ∧
    (handleSubmit { initialFormData with
        title := "Toast", instructions := "Butter the bread." }).servings
      = some 4 :=
  ⟨rfl, rfl, rfl, rfl, rfl, rfl, rfl, rfl, fun _ => rfl, rfl⟩

/-- Claim C3, failing input: a draft whose title and instructions are
non-empty but whose only ingredient is blank is dispatched to `onSubmit`
with an empty normalized ingredient list instead of being rejected locally;
no non-blank-ingredient check exists in `handleSubmit`, although the form
labels the ingredients field as required. Empty title or instructions do
block submission at the form boundary. -/
theorem submit_dispatches_without_nonblank_ingredient :
    submitForm { initialFormData with
        title := "Toast", instructions := "Butter the bread.",
        ingredients := ["   "] }
      = some { initialFormData with
          title := "Toast", instructions := "Butter the bread.",
          ingredients := [] } ∧
    submitForm initialFormData = none ∧
    submitForm { initialFormData with title := "Toast" } = none ∧
    submitForm { initialFormData with instructions := "Butter the bread." }
      = none := by
  refine ⟨by decide, rfl, by decide, by decide⟩

/-- `addIngredient` (`RecipeForm.tsx` lines 70-75): append one blank slot. -/
def addIngredient (ingredients : List String) : List String :=
  ingredients ++ [""]

/-- JavaScript `Array.prototype.filter` with the callback's index argument,
the running index made explicit. -/
def filterWithIdx (p : String → Nat → Bool) : List String → Nat → List String
  | [], _ => []
  | a :: as, i =>
      if p a i then a :: filterWithIdx p as (i + 1) else filterWithIdx p as (i + 1)

/-- JavaScript `Array.prototype.map` with the callback's index argument. -/
def mapWithIdx (f : String → Nat → String) : List String → Nat → List String
  | [], _ => []
  | a :: as, i => f a i :: mapWithIdx f as (i + 1)

/-- `removeIngredient` (`RecipeForm.tsx` lines 77-82): drop the entry whose
index equals `index`. -/
def removeIngredient (ingredients : List String) (index : Nat) : List String :=
  filterWithIdx (fun _ i => !(i == index)) ingredients 0

/-- `updateIngredient` (`RecipeForm.tsx` lines 84-91): replace the entry at
`index` in place. -/
def updateIngredient (ingredients : List String) (index : Nat) (value : String) :
    List String :=
  mapWithIdx (fun ingredient i => if i == index then value else ingredient)
    ingredients 0

/-- One user-level editing interaction on the draft's ingredient list. -/
inductive EditAction where
  | addSlot
  | removeSlot (index : Nat)
  | setSlot (index : Nat) (value : String)

/-- One editing step. The remove button of a slot is rendered only while
more than one slot exists (`RecipeForm.tsx` line 128), so a remove
interaction can fire only then; with a single slot the state is unchanged. -/
def stepIngredients (ingredients : List String) : EditAction → List String
  | .addSlot => addIngredient ingredients
  | .removeSlot index =>
      if ingredients.length > 1 then removeIngredient ingredients index
      else ingredients
  | .setSlot index value => updateIngredient ingredients index value

theorem filterWithIdx_id_of_lt (index : Nat) (l : List String) (s : Nat)
    (h : index < s) : filterWithIdx (fun _ i => !(i == index)) l s = l := by
  induction l generalizing s with
  | nil => rfl
  | cons a as ih =>
      have hne : (s == index) = false := by
        cases hd : s == index with
        | false => rfl
        | true => exact absurd (eq_of_beq hd) (Nat.ne_of_gt h)
      simp [filterWithIdx, hne, ih (s + 1) (Nat.lt_succ_of_lt h)]

theorem filterWithIdx_length_ge (index : Nat) (l : List String) (s : Nat) :
    l.length - 1 ≤ (filterWithIdx (fun _ i => !(i == index)) l s).length := by
  induction l generalizing s with
  | nil => simp [filterWithIdx]
  | cons a as ih =>
      by_cases hsi : s = index
      · have hb : (s == index) = true := by
          rw [hsi]
          exact beq_self_eq_true index
        have hlt : index < s + 1 := by omega
        simp [filterWithIdx, hb, filterWithIdx_id_of_lt index as (s + 1) hlt]
      · have hne : (s == index) = false := by
          cases hd : s == index with
          | false => rfl
          | true => exact absurd (eq_of_beq hd) hsi
        have := ih (s + 1)
        simp [filterWithIdx, hne]
        omega

theorem mapWithIdx_length (f : String → Nat → String) (l : List String)
    (s : Nat) : (mapWithIdx f l s).length = l.length := by
  induction l generalizing s with
  | nil => rfl
  | cons a as ih => simp [mapWithIdx, ih]

theorem stepIngredients_pos (l : List String) (h : 0 < l.length)
    (a : EditAction) : 0 < (stepIngredients l a).length := by
  cases a with
  | addSlot => simp [stepIngredients, addIngredient]
  | removeSlot index =>
      simp only [stepIngredients]
      by_cases hlen : l.length > 1
      · rw [if_pos hlen]
        have hge := filterWithIdx_length_ge index l 0
        simp only [removeIngredient]
        omega
      · rw [if_neg hlen]
        exact h
  | setSlot index value =>
      simp only [stepIngredients, updateIngredient]
      rw [mapWithIdx_length]
      exact h

theorem foldl_stepIngredients_pos (acts : List EditAction) (l : List String)
    (h : 0 < l.length) : 0 < (acts.foldl stepIngredients l).length := by
  induction acts generalizing l with
  | nil => exact h
  | cons a as ih => exact ih _ (stepIngredients_pos l h a)

/-- Claim C7: with exactly one ingredient slot a remove interaction is a
no-op (the remove button is not rendered), and under any sequence of
add/remove/set interactions starting from a non-empty slot list the slot
list never becomes empty. -/
theorem ingredientSlots_never_empty (l : List String) (h : l ≠ []) :
    (∀ index, l.length = 1 →
      stepIngredients l (EditAction.removeSlot index) = l) ∧
    (∀ acts : List EditAction, acts.foldl stepIngredients l ≠ []) := by
  constructor
  · intro index h1
    simp only [stepIngredients]
    rw [if_neg (by omega : ¬l.length > 1)]
  · intro acts
    have hp := foldl_stepIngredients_pos acts l (List.length_pos.mpr h)
    exact List.ne_nil_of_length_pos hp

/-- Witness for C7 at a concrete draft: the single blank slot survives a
remove interaction, and a short interaction sequence leaves the list
non-empty. -/
theorem ingredientSlots_never_empty_w :
    stepIngredients [""] (EditAction.removeSlot 0) = [""] ∧
      [EditAction.removeSlot 0, EditAction.addSlot,
        EditAction.setSlot 0 "Salt"].foldl stepIngredients [""] ≠ [] :=
  ⟨(ingredientSlots_never_empty [""] (by decide)).1 0 (by decide),
   (ingredientSlots_never_empty [""] (by decide)).2 _⟩

/-- A notification shown through `useToast`: a title, an optional
description, and whether the destructive variant was used. -/
structure Toast where
  title : String
  description : Option String
  destructive : Bool
deriving DecidableEq, Repr

/-- The Dashboard component state (`src/pages/Dashboard.tsx` lines 41-49),
extended with an observation trace: `toasts` records the notifications
shown, `removeCalls` the ids sent to the collaborator's delete endpoint,
and `fetchInFlight` whether a fetch request has been issued and not yet
answered. -/
structure DashState where
  recipes : List Recipe
  loading : Bool
  showForm : Bool
  editingRecipe : Option Recipe
  deleteDialogOpen : Bool
  recipeToDelete : Option String
  toasts : List Toast
  removeCalls : List String
  fetchInFlight : Bool
deriving DecidableEq, Repr

/-- The state at mount: the `useState` initializers of lines 41-49. -/
def initialDashState : DashState :=
  { recipes := []
    loading := true
    showForm := false
    editingRecipe := none
    deleteDialogOpen := false
    recipeToDelete := none
    toasts := []
    removeCalls := []
    fetchInFlight := false }

/-- `fetchRecipes` up to its await (`Dashboard.tsx` lines 59-64): the
request is issued; no state hook is written before the response arrives —
in particular `loading` is not touched. -/
def fetchStart (s : DashState) : DashState :=
  { s with fetchInFlight := true }

/-- `fetchRecipes` from the response on (`Dashboard.tsx` lines 66-76): on
success the collection is replaced by the fetched data (`data || []`); on
error a destructive toast carries the collaborator's message and the
collection is untouched; the `finally` clause sets `loading` false either
way. -/
def fetchComplete (s : DashState)
    (resp : Except String (Option (List Recipe))) : DashState :=
  match resp with
  | .ok data =>
      { s with recipes := data.getD [], loading := false, fetchInFlight := false }
  | .error msg =>
      { s with
          toasts := s.toasts ++ [⟨"Error fetching recipes", some msg, true⟩],
          loading := false,
          fetchInFlight := false }

/-- A whole `fetchRecipes` call, as a function of the collaborator's
response. -/
def fetchRecipes (s : DashState)
    (resp : Except String (Option (List Recipe))) : DashState :=
  fetchComplete (fetchStart s) resp

/-- `handleSaveRecipe` (`Dashboard.tsx` lines 79-118), as a function of the
collaborator's response to the update/insert and, when that succeeds, of
the response to the follow-up `fetchRecipes()`. On failure only a
destructive toast is added; on success a toast is shown, the form closes,
the editing seed is cleared, and a full fetch runs. -/
def handleSaveRecipe (s : DashState) (mutResp : Except String Unit)
    (fetchResp : Except String (Option (List Recipe))) : DashState :=
  match mutResp with
  | .ok _ =>
      let t : Toast :=
        ⟨if s.editingRecipe.isSome then "Recipe updated successfully"
          else "Recipe created successfully", none, false⟩
      fetchRecipes
        { s with
            toasts := s.toasts ++ [t], showForm := false, editingRecipe := none }
        fetchResp
  | .error msg =>
      let t : Toast :=
        ⟨if s.editingRecipe.isSome then "Error updating recipe"
          else "Error creating recipe", some msg, true⟩
      { s with toasts := s.toasts ++ [t] }

/-- `handleDeleteRecipe` (`Dashboard.tsx` lines 120-146): an early return
when no id is pending; otherwise the delete request is issued for the
pending id; on success a toast is shown and a full fetch runs, on error a
destructive toast carries the collaborator's message; the `finally` clause
closes the dialog and clears the pending id. -/
def handleDeleteRecipe (s : DashState) (delResp : Except String Unit)
    (fetchResp : Except String (Option (List Recipe))) : DashState :=
  match s.recipeToDelete with
  | none => s
  | some id =>
      let s0 : DashState := { s with removeCalls := s.removeCalls ++ [id] }
      let s1 : DashState :=
        match delResp with
        | .ok _ =>
            fetchRecipes
              { s0 with
                  toasts := s0.toasts ++ [⟨"Recipe deleted successfully", none, false⟩] }
              fetchResp
        | .error msg =>
            { s0 with
                toasts := s0.toasts ++ [⟨"Error deleting recipe", some msg, true⟩] }
      { s1 with deleteDialogOpen := false, recipeToDelete := none }

/-- The `onDelete` callback of a recipe card (`Dashboard.tsx` lines
288-291): record the pending id and open the confirmation dialog. -/
def onDeleteClick (s : DashState) (id : String) : DashState :=
  { s with recipeToDelete := some id, deleteDialogOpen := true }

/-- Dismissing the confirmation dialog (`Dashboard.tsx` lines 299-317):
the cancel button closes the dialog through `onOpenChange`, which only
sets `deleteDialogOpen`. -/
def onCancelDelete (s : DashState) : DashState :=
  { s with deleteDialogOpen := false }

/-- The user-level events of the delete-confirmation flow. -/
inductive DashEvent where
  | deleteClick (id : String)
  | cancelDelete
  | confirmDelete (delResp : Except String Unit)
      (fetchResp : Except String (Option (List Recipe)))

/-- One step of the delete-confirmation flow: clicking a card's delete
button, dismissing the dialog, or confirming — which runs
`handleDeleteRecipe` with the collaborator's responses. -/
def dashStep (s : DashState) : DashEvent → DashState
  | .deleteClick id => onDeleteClick s id
  | .cancelDelete => onCancelDelete s
  | .confirmDelete delResp fetchResp => handleDeleteRecipe s delResp fetchResp

/-- Claim C4: a failing fetch, a failing save (create or update), and a
failing delete each leave the local collection exactly as it was, and each
appends one destructive notification whose description is the
collaborator's error message. -/
theorem failing_calls_preserve_collection (s : DashState) (msg : String)
    (id : String) (fr : Except String (Option (List Recipe)))
    (h : s.recipeToDelete = some id) :
    ((fetchRecipes s (Except.error msg)).recipes = s.recipes ∧
      (fetchRecipes s (Except.error msg)).toasts =
        s.toasts ++ [⟨"Error fetching recipes", some msg, true⟩]) ∧
    ((handleSaveRecipe s (Except.error msg) fr).recipes = s.recipes ∧
      ∃ t, (handleSaveRecipe s (Except.error msg) fr).toasts =
        s.toasts ++ [⟨t, some msg, true⟩]) ∧
    ((handleDeleteRecipe s (Except.error msg) fr).recipes = s.recipes ∧
      ∃ t, (handleDeleteRecipe s (Except.error msg) fr).toasts =
        s.toasts ++ [⟨t, some msg, true⟩]) := by
  obtain ⟨rec, ld, sf, er, dd, rtd, ts, rc, fif⟩ := s
  replace h : rtd = some id := h
  subst h
  exact ⟨⟨rfl, rfl⟩, ⟨rfl, ⟨_, rfl⟩⟩, ⟨rfl, ⟨_, rfl⟩⟩⟩

/-- Witness for C4 at a concrete state with recipe `"r1"` pending: the
failing fetch and the failing delete keep the collection. -/
theorem failing_calls_preserve_collection_w :
    (fetchRecipes { initialDashState with recipeToDelete := some "r1" }
        (Except.error "boom")).recipes =
      ({ initialDashState with recipeToDelete := some "r1" } : DashState).recipes ∧
    (handleDeleteRecipe { initialDashState with recipeToDelete := some "r1" }
        (Except.error "boom") (Except.ok none)).recipes =
      ({ initialDashState with recipeToDelete := some "r1" } : DashState).recipes :=
  ⟨(failing_calls_preserve_collection _ "boom" "r1" (Except.ok none) rfl).1.1,
   (failing_calls_preserve_collection _ "boom" "r1" (Except.ok none) rfl).2.2.1⟩

/-- Claim C5: the local collection only ever changes by wholesale
replacement with a freshly fetched list — a fetch either keeps the prior
collection (failure) or installs exactly the fetched payload, and a save or
delete either keeps the prior collection or ends in the follow-up fetch's
payload; a successful save or delete whose follow-up fetch succeeds always
installs that payload. -/
theorem collection_changes_only_by_reload (s : DashState) (id : String)
    (mr : Except String Unit) (fr : Except String (Option (List Recipe)))
    (h : s.recipeToDelete = some id) :
    (∀ r, (fetchRecipes s r).recipes = s.recipes ∨
      ∃ data, r = Except.ok data ∧ (fetchRecipes s r).recipes = data.getD []) ∧
    ((handleSaveRecipe s mr fr).recipes = s.recipes ∨
      ∃ data, fr = Except.ok data ∧ mr = Except.ok () ∧
        (handleSaveRecipe s mr fr).recipes = data.getD []) ∧
    (∀ data, fr = Except.ok data → mr = Except.ok () →
      (handleSaveRecipe s mr fr).recipes = data.getD []) ∧
    ((handleDeleteRecipe s mr fr).recipes = s.recipes ∨
      ∃ data, fr = Except.ok data ∧ mr = Except.ok () ∧
        (handleDeleteRecipe s mr fr).recipes = data.getD []) ∧
    (∀ data, fr = Except.ok data → mr = Except.ok () →
      (handleDeleteRecipe s mr fr).recipes = data.getD []) := by
  obtain ⟨rec, ld, sf, er, dd, rtd, ts, rc, fif⟩ := s
  replace h : rtd = some id := h
  subst h
  refine ⟨?_, ?_, ?_, ?_, ?_⟩
  · intro r
    cases r with
    | ok data => exact Or.inr ⟨data, rfl, rfl⟩
    | error m => exact Or.inl rfl
  · cases mr with
    | ok u =>
        cases u
        cases fr with
        | ok data => exact Or.inr ⟨data, rfl, rfl, rfl⟩
        | error m => exact Or.inl rfl
    | error m => exact Or.inl rfl
  · intro data hfr hmr
    subst hfr
    subst hmr
    rfl
  · cases mr with
    | ok u =>
        cases u
        cases fr with
        | ok data => exact Or.inr ⟨data, rfl, rfl, rfl⟩
        | error m => exact Or.inl rfl
    | error m => exact Or.inl rfl
  · intro data hfr hmr
    subst hfr
    subst hmr
    rfl

/-- Witness for C5 at a concrete state with recipe `"r1"` pending: a
successful delete followed by a successful fetch installs exactly the
fetched list. -/
theorem collection_changes_only_by_reload_w :
    (handleDeleteRecipe { initialDashState with recipeToDelete := some "r1" }
        (Except.ok ()) (Except.ok (some []))).recipes = (some []).getD [] :=
  (collection_changes_only_by_reload _ "r1" (Except.ok ()) (Except.ok (some []))
      rfl).2.2.2.2 (some []) rfl rfl

/-- Claim C8 counterexample: cancelling the confirmation dialog does not
clear the pending delete id — after selecting recipe `"r1"` for deletion
and cancelling, `recipeToDelete` still holds `"r1"` instead of being
cleared. -/
theorem cancel_does_not_clear_pending :
    (dashStep (dashStep initialDashState (DashEvent.deleteClick "r1"))
        DashEvent.cancelDelete).recipeToDelete = some "r1" ∧
    ¬(dashStep (dashStep initialDashState (DashEvent.deleteClick "r1"))
        DashEvent.cancelDelete).recipeToDelete = none :=
  ⟨rfl, by decide⟩

/-- Claim C8 amended: a delete request reaches the collaborator only
through a confirm event while a pending id is set (confirming with no
pending id, cancelling, and clicking a card's delete button issue no
call), and cancelling leaves the collection unchanged and closes the
dialog; the pending id, however, is cleared by `handleDeleteRecipe`'s
`finally` clause on confirmation, not by cancelling. -/
theorem remove_only_after_confirm (s : DashState) (id : String)
    (d : Except String Unit) (f : Except String (Option (List Recipe)))
    (h : s.recipeToDelete = some id) :
    (dashStep s (DashEvent.confirmDelete d f)).removeCalls =
      s.removeCalls ++ [id] ∧
    (dashStep s (DashEvent.confirmDelete d f)).recipeToDelete = none ∧
    (∀ s' : DashState, s'.recipeToDelete = none →
      (dashStep s' (DashEvent.confirmDelete d f)).removeCalls = s'.removeCalls) ∧
    ((dashStep s DashEvent.cancelDelete).removeCalls = s.removeCalls ∧
      (dashStep s DashEvent.cancelDelete).recipes = s.recipes ∧
      (dashStep s DashEvent.cancelDelete).deleteDialogOpen = false ∧
      (dashStep s DashEvent.cancelDelete).recipeToDelete = s.recipeToDelete) ∧
    (∀ i, (dashStep s (DashEvent.deleteClick i)).removeCalls = s.removeCalls ∧
      (dashStep s (DashEvent.deleteClick i)).recipes = s.recipes ∧
      (dashStep s (DashEvent.deleteClick i)).recipeToDelete = some i) := by
  obtain ⟨rec, ld, sf, er, dd, rtd, ts, rc, fif⟩ := s
  replace h : rtd = some id := h
  subst h
  refine ⟨?_, rfl, ?_, ⟨rfl, rfl, rfl, rfl⟩, fun i => ⟨rfl, rfl, rfl⟩⟩
  · cases d with
    | ok u =>
        cases f with
        | ok data => rfl
        | error m => rfl
    | error m => rfl
  · intro s' h'
    obtain ⟨rec', ld', sf', er', dd', rtd', ts', rc', fif'⟩ := s'
    replace h' : rtd' = none := h'
    subst h'
    rfl

/-- Witness for C8 (amended) at a concrete state with recipe `"r1"`
pending: confirming records exactly one delete call for `"r1"` and clears
the pending id. -/
theorem remove_only_after_confirm_w :
    (dashStep { initialDashState with recipeToDelete := some "r1" }
        (DashEvent.confirmDelete (Except.ok ()) (Except.ok none))).removeCalls =
      ({ initialDashState with recipeToDelete := some "r1" } : DashState).removeCalls
        ++ ["r1"] ∧
    (dashStep { initialDashState with recipeToDelete := some "r1" }
        (DashEvent.confirmDelete (Except.ok ()) (Except.ok none))).recipeToDelete =
      none :=
  ⟨(remove_only_after_confirm _ "r1" (Except.ok ()) (Except.ok none) rfl).1,
   (remove_only_after_confirm _ "r1" (Except.ok ()) (Except.ok none) rfl).2.1⟩

/-- Claim C9 counterexample: a reload issued after the initial load has
completed runs with the loading flag false — `fetchRecipes` never sets the
flag to true, so a second load can be in flight while `loading = false`,
against the claim that the flag is true whenever a load is in flight. -/
theorem reload_runs_with_loading_false :
    (fetchStart (fetchRecipes initialDashState
        (Except.ok (some [])))).fetchInFlight = true ∧
    (fetchStart (fetchRecipes initialDashState
        (Except.ok (some [])))).loading = false :=
  ⟨rfl, rfl⟩

/-- Claim C9 amended: issuing a load never changes the loading flag — in
particular it is never set to true by `fetchRecipes` itself; every load
completion sets it false; the flag is true at mount, so it is true for the
duration of the initial mount-time load only. -/
theorem loading_flag_behavior (s : DashState)
    (resp : Except String (Option (List Recipe))) :
    (fetchStart s).loading = s.loading ∧
    (fetchComplete s resp).loading = false ∧
    initialDashState.loading = true ∧
    (fetchStart initialDashState).loading = true := by
  refine ⟨rfl, ?_, rfl, rfl⟩
  cases resp with
  | ok data => rfl
  | error m => rfl

end RecipeKeeper
